import Mathlib

/-!
Verification development for the dataset-descriptor component
(`metafeatures/dataset_describe.py`): a shallow embedding of the `Dataset`
class and proofs about its construction-time resolution logic, categorical
encoding, and memoized statistic accessors.

Modelling conventions:
* A data frame is a list of named columns; each cell is an exact rational
  (pandas numeric values are modelled exactly in ℚ), a string, or the
  missing value (NaN in a data slot).  A column is "numeric" when every
  cell is a number or missing, matching pandas dtype inference.
* Python `None`-able fields become `Option`; raising becomes `Except PyErr`.
* Floating results of accessors are `PyVal`: the NaN sentinel, an exact
  rational, or a symbolic square root of a rational (sample standard
  deviations are irrational in general; no claim inspects their numeric
  value, so the exact radicand is kept symbolically).
* Pearson correlation is delegated by the source to the pandas collaborator
  (`df.corr()`); per the component's external-interface contract it is
  modelled as an abstract function `CorrFn` giving, for a frame and the
  dependent column name, the series `df.corr()[dependent]` as name/value
  pairs.  All theorems about the correlation accessors hold for every such
  collaborator function.
-/

namespace DatasetDescribe

/-- One cell of a data frame: an exact numeric value, a string, or a
missing entry (NaN).  pandas `unique()` collapses all NaN entries to one,
which matches `missing` being a single constructor. -/
inductive Cell where
  | num (x : ℚ)
  | str (s : String)
  | missing
deriving DecidableEq, Repr

/-- A named column: the column label and its cells in row order. -/
structure Col where
  name : String
  values : List Cell
deriving DecidableEq, Repr

/-- A data frame: an ordered sequence of named columns. -/
structure Df where
  cols : List Col
deriving DecidableEq, Repr

/-- Python `df.columns.tolist()`: the column labels in declared order. -/
def Df.columnNames (df : Df) : List String := df.cols.map Col.name

/-- pandas dtype inference: a column is numeric when every cell is a number
or missing (an all-NaN column is float64, hence numeric). -/
def Col.isNumeric (c : Col) : Bool :=
  c.values.all fun v =>
    match v with
    | .num _ => true
    | .str _ => false
    | .missing => true

/-- Python `df._get_numeric_data().columns.tolist()`: labels of numeric columns. -/
def Df.numericColumnNames (df : Df) : List String :=
  (df.cols.filter Col.isNumeric).map Col.name

/-- Python `df[col]`: the cells of the first column labelled `col` (`[]` when the
label is absent; pandas would raise `KeyError`, a path no claim exercises). -/
def Df.colValues (df : Df) (col : String) : List Cell :=
  match df.cols.find? (fun c => c.name = col) with
  | some c => c.values
  | none => []

/-- The Python exceptions the embedded code can raise. -/
inductive PyErr where
  /-- the bare `raise ValueError` of `_set_dependent_col` -/
  | valueError
  /-- Python `list[-1]` on an empty list -/
  | indexError
  /-- Python `None.abs()` when `_get_corr_with_dependent` falls through -/
  | attributeError
  /-- pandas: `if series:`/`bool(series)` raises
  `ValueError: the truth value of a Series is ambiguous` -/
  | seriesTruthValueError
  /-- pandas `df[col]` with a label absent from the frame -/
  | keyError
deriving DecidableEq, Repr

/-- Python `Dataset._set_dependent_col`: default to the last column, accept an
existing explicit name, otherwise `raise ValueError`. -/
def resolveDependent (df : Df) : Option String → Except PyErr String
  | none =>
    match df.columnNames.getLast? with
    | some n => .ok n
    | none => .error .indexError
  | some n => if n ∈ df.columnNames then .ok n else .error .valueError

/-- Python `Dataset._set_categorical_columns`: if not supplied, all non-numeric
columns except the dependent one (Python set difference, here dedup +
filter; claims only use set membership); an explicit list is taken
verbatim, unvalidated. -/
def resolveCategorical (df : Df) (dep : String) : Option (List String) → List String
  | none =>
    (df.columnNames.dedup).filter fun c =>
      !(df.numericColumnNames.contains c) && c != dep
  | some l => l

/-- Python `Dataset._set_prediction_type`: infer from the dependent column's
numeric-ness when not supplied; an explicit value is taken verbatim,
unvalidated. -/
def resolvePredictionType (df : Df) (dep : String) : Option String → String
  | none =>
    if dep ∈ df.numericColumnNames then "regression" else "classification"
  | some p => p

/-- Python `set(s)` for a string `s`: the set of its one-character
substrings.  The source computes
`set(self.df.columns.tolist()) - set(self.dependent_col)`, where
`self.dependent_col` is a string, so the subtrahend is this character
set, not `{dependent_col}`. -/
def pyCharSet (s : String) : List String :=
  s.toList.map fun ch => String.mk [ch]

/-- Python `list(set(df.columns.tolist()) - set(dependent_col))` as executed by
the source: distinct column names minus the character set of the
dependent name (the iteration order of a Python set is unspecified; the
model fixes one order, and claims use only set membership). -/
def resolveIndependent (df : Df) (dep : String) : List String :=
  (df.columnNames.dedup).filter fun c => !(pyCharSet dep).contains c

/-- Python `unique()` on a column: distinct cells, NaN included (pandas `unique`
keeps a single NaN entry). -/
def uniqueCells (vs : List Cell) : List Cell := vs.dedup

/-- Python `dropna().unique()`: distinct non-missing cells. -/
def distinctNonMissing (vs : List Cell) : List Cell :=
  (vs.filter fun v => v != Cell.missing).dedup

/-- Python `LabelEncoder().fit_transform` (collaborator contract: a deterministic
mapping from distinct values to dense integer codes): each cell becomes
the index of its first occurrence among the distinct values. -/
def labelEncode (vs : List Cell) : List Cell :=
  vs.map fun v => Cell.num ((vs.dedup).indexOf v : ℕ)

/-- Python `str(value)` as used by `pd.get_dummies` to label dummy columns. -/
def cellStr : Cell → String
  | .str s => s
  | .num x => toString x
  | .missing => "nan"

/-- The numeric content of a cell (0 for non-numbers); used to state row
sums over indicator columns. -/
def cellQ : Cell → ℚ
  | .num x => x
  | .str _ => 0
  | .missing => 0

/-- Python `pd.get_dummies(g, columns=[col])`: drop `col`, append one 0/1
indicator column per distinct non-missing value (default `dummy_na=False`:
missing rows get all-zero indicators), named `col_value`.  The other
columns keep their order; indicator columns are appended at the end. -/
def getDummies (g : Df) (col : String) (c : Col) : Df :=
  let vals := distinctNonMissing c.values
  let inds := vals.map fun v =>
    Col.mk (col ++ "_" ++ cellStr v)
      (c.values.map fun w => Cell.num (if w = v then 1 else 0))
  ⟨(g.cols.filter fun d => d.name != col) ++ inds⟩

/-- The loop body of `Dataset._categorical_column_encoder`: indexing
`df_encoded[col]` raises `KeyError` when the label is absent from the
frame (explicit categorical lists are unvalidated); otherwise branch on
`len(df_encoded[col].unique())` (NaN counts as one distinct value),
label-encode in place when ≤ 2, one-hot via `get_dummies` otherwise. -/
def encodeColumn (g : Df) (col : String) : Except PyErr Df :=
  match g.cols.find? (fun c => c.name = col) with
  | none => .error .keyError
  | some c =>
    if (uniqueCells c.values).length ≤ 2 then
      .ok ⟨g.cols.map fun d =>
        if d.name = col then ⟨d.name, labelEncode d.values⟩ else d⟩
    else
      .ok (getDummies g col c)

/-- Python `Dataset._categorical_column_encoder`: fold the per-column transform
over the categorical columns, starting from a copy of `df`; the first
missing column aborts construction with `KeyError`. -/
def encodeAll (g : Df) (cats : List String) : Except PyErr Df :=
  cats.foldlM encodeColumn g

/-- The resolved descriptor state produced by `Dataset.__init__`. -/
structure Dataset where
  df : Df
  df_encoded : Df
  dependent_col : String
  prediction_type : String
  categorical_cols : List String
  independent_col : List String
deriving DecidableEq, Repr

/-- Python `Dataset.__init__(df, prediction_type, dependent_col, categorical_cols)`:
resolve the dependent column (the only step that can raise), then the
categorical columns, the prediction type, the independent-column set, and
the eagerly encoded frame. -/
def Dataset.init (df : Df) (prediction_type dependent_col : Option String)
    (categorical_cols : Option (List String)) : Except PyErr Dataset :=
  match resolveDependent df dependent_col with
  | .error e => .error e
  | .ok dep =>
    match encodeAll df (resolveCategorical df dep categorical_cols) with
    | .error e => .error e
    | .ok enc =>
      .ok ⟨df, enc, dep,
           resolvePredictionType df dep prediction_type,
           resolveCategorical df dep categorical_cols,
           resolveIndependent df dep⟩

/-- Python `df.shape[0]`: the row count (length of the first column). -/
def Dataset.nRows (ds : Dataset) : ℕ :=
  match ds.df.cols with
  | [] => 0
  | c :: _ => c.values.length

/-- The cells of the dependent column. -/
def Dataset.depValues (ds : Dataset) : List Cell :=
  ds.df.colValues ds.dependent_col

/-- A scalar accessor result: the NaN sentinel, an exact rational, or the
(symbolic) square root of a rational, which only sample standard
deviations produce. -/
inductive PyVal where
  | nan
  | val (x : ℚ)
  | sqrtVal (x : ℚ)
deriving DecidableEq, Repr

/-- Python `series.max()`: NaN on an empty series, otherwise the maximum. -/
def seriesMax : List ℚ → PyVal
  | [] => .nan
  | x :: xs => .val (xs.foldl max x)

/-- Python `series.min()`: NaN on an empty series, otherwise the minimum. -/
def seriesMin : List ℚ → PyVal
  | [] => .nan
  | x :: xs => .val (xs.foldl min x)

/-- Python `series.mean()`: NaN on an empty series, otherwise the mean. -/
def seriesMean (l : List ℚ) : PyVal :=
  match l with
  | [] => .nan
  | _ => .val (l.sum / (l.length : ℚ))

/-- Python `series.median()`: NaN on an empty series; the middle element of the
sorted values, or the mean of the two middle elements for even length. -/
def seriesMedian (l : List ℚ) : PyVal :=
  match l with
  | [] => .nan
  | _ =>
    let s := l.insertionSort (· ≤ ·)
    let n := s.length
    if n % 2 = 1 then .val (s.getD (n / 2) 0)
    else .val ((s.getD (n / 2 - 1) 0 + s.getD (n / 2) 0) / 2)

/-- Python `series.std(ddof=1)` / `np.nanstd(xs, ddof=1)`: NaN for fewer than two
values, otherwise the square root of the sample variance (kept symbolic
as `sqrtVal` of the exact radicand). -/
def seriesStd (l : List ℚ) : PyVal :=
  if l.length ≤ 1 then .nan
  else
    .sqrtVal
      ((l.map fun x => (x - l.sum / (l.length : ℚ)) ^ 2).sum /
        ((l.length : ℚ) - 1))

/-- Python `np.nanpercentile(xs, p)` (the model's series carry no NaN entries):
linear interpolation at rank `p/100 * (n-1)` over the sorted values; NaN
on an empty input. -/
def nanPercentile (l : List ℚ) (p : ℚ) : PyVal :=
  match l with
  | [] => .nan
  | _ =>
    let s := l.insertionSort (· ≤ ·)
    let n := s.length
    let r : ℚ := p / 100 * ((n : ℚ) - 1)
    let i : ℕ := (Rat.floor r).toNat
    if i + 1 < n then
      .val (s.getD i 0 + (r - (i : ℚ)) * (s.getD (i + 1) 0 - s.getD i 0))
    else
      .val (s.getD i 0)

/-- Python `Dataset.n_classes`: distinct values of the dependent column for
classification, NaN otherwise. -/
def Dataset.n_classes (ds : Dataset) : PyVal :=
  if ds.prediction_type = "classification" then
    .val ((uniqueCells ds.depValues).length : ℕ)
  else .nan

/-- The abstract pandas collaborator computing `df.corr()[dependent]`:
the Pearson-correlation series of the encoded frame with the dependent
column, as name/value pairs. -/
abbrev CorrFn := Df → String → List (String × ℚ)

/-- The correlation series type: encoded-column name paired with its
coefficient. -/
abbrev CorrSeries := List (String × ℚ)

/-- The instance attribute `corr_with_dependent` backing the correlation
memoization (class default `None`, rebound per instance on first write). -/
structure CorrMemo where
  corr_with_dependent : Option CorrSeries
deriving DecidableEq, Repr

/-- Python `Dataset._get_corr_with_dependent` with the memo state threaded.
For regression: the guard is `if self.corr_with_dependent != None:` —
once the attribute holds a pandas Series, `series != None` is an
elementwise boolean Series whose truth value raises `ValueError`, so a
populated memo raises; an unpopulated one computes
`df_encoded.corr()[dep]`, drops the dependent entry, stores and returns
it.  For any other prediction type the function falls through and
returns Python `None`. -/
def getCorrWithDependent (f : CorrFn) (ds : Dataset) (m : CorrMemo) :
    Except PyErr (Option CorrSeries × CorrMemo) :=
  if ds.prediction_type = "regression" then
    match m.corr_with_dependent with
    | some _ => .error .seriesTruthValueError
    | none =>
      let s := (f ds.df_encoded ds.dependent_col).filter
        fun p => p.1 != ds.dependent_col
      .ok (some s, ⟨some s⟩)
  else .ok (none, m)

/-- The absolute values of a correlation series (`series.abs()`). -/
def absSeries (s : CorrSeries) : List ℚ := s.map fun p => |p.2|

/-- Python `Dataset.corr_with_dependent_abs_max`: NaN for classification,
otherwise the max of the absolute correlation series (`None.abs()`
raises `AttributeError` when the prediction type is neither label). -/
def corr_with_dependent_abs_max (f : CorrFn) (ds : Dataset) (m : CorrMemo) :
    Except PyErr (PyVal × CorrMemo) :=
  if ds.prediction_type = "classification" then .ok (.nan, m)
  else
    match getCorrWithDependent f ds m with
    | .error e => .error e
    | .ok (none, _) => .error .attributeError
    | .ok (some s, m1) => .ok (seriesMax (absSeries s), m1)

/-- Python `Dataset.corr_with_dependent_abs_min`. -/
def corr_with_dependent_abs_min (f : CorrFn) (ds : Dataset) (m : CorrMemo) :
    Except PyErr (PyVal × CorrMemo) :=
  if ds.prediction_type = "classification" then .ok (.nan, m)
  else
    match getCorrWithDependent f ds m with
    | .error e => .error e
    | .ok (none, _) => .error .attributeError
    | .ok (some s, m1) => .ok (seriesMin (absSeries s), m1)

/-- Python `Dataset.corr_with_dependent_abs_mean`. -/
def corr_with_dependent_abs_mean (f : CorrFn) (ds : Dataset) (m : CorrMemo) :
    Except PyErr (PyVal × CorrMemo) :=
  if ds.prediction_type = "classification" then .ok (.nan, m)
  else
    match getCorrWithDependent f ds m with
    | .error e => .error e
    | .ok (none, _) => .error .attributeError
    | .ok (some s, m1) => .ok (seriesMean (absSeries s), m1)

/-- Python `Dataset.corr_with_dependent_abs_median`. -/
def corr_with_dependent_abs_median (f : CorrFn) (ds : Dataset) (m : CorrMemo) :
    Except PyErr (PyVal × CorrMemo) :=
  if ds.prediction_type = "classification" then .ok (.nan, m)
  else
    match getCorrWithDependent f ds m with
    | .error e => .error e
    | .ok (none, _) => .error .attributeError
    | .ok (some s, m1) => .ok (seriesMedian (absSeries s), m1)

/-- Python `Dataset.corr_with_dependent_abs_std` (`std(ddof=1)`). -/
def corr_with_dependent_abs_std (f : CorrFn) (ds : Dataset) (m : CorrMemo) :
    Except PyErr (PyVal × CorrMemo) :=
  if ds.prediction_type = "classification" then .ok (.nan, m)
  else
    match getCorrWithDependent f ds m with
    | .error e => .error e
    | .ok (none, _) => .error .attributeError
    | .ok (some s, m1) => .ok (seriesStd (absSeries s), m1)

/-- Python `Dataset.corr_with_dependent_abs_25p` (`np.nanpercentile(_, 25)`). -/
def corr_with_dependent_abs_25p (f : CorrFn) (ds : Dataset) (m : CorrMemo) :
    Except PyErr (PyVal × CorrMemo) :=
  if ds.prediction_type = "classification" then .ok (.nan, m)
  else
    match getCorrWithDependent f ds m with
    | .error e => .error e
    | .ok (none, _) => .error .attributeError
    | .ok (some s, m1) => .ok (nanPercentile (absSeries s) 25, m1)

/-- Python `Dataset.corr_with_dependent_abs_75p` (`np.nanpercentile(_, 75)`). -/
def corr_with_dependent_abs_75p (f : CorrFn) (ds : Dataset) (m : CorrMemo) :
    Except PyErr (PyVal × CorrMemo) :=
  if ds.prediction_type = "classification" then .ok (.nan, m)
  else
    match getCorrWithDependent f ds m with
    | .error e => .error e
    | .ok (none, _) => .error .attributeError
    | .ok (some s, m1) => .ok (nanPercentile (absSeries s) 75, m1)

/-- The class-probability mapping type: a distinct dependent value paired
with its empirical frequency. -/
abbrev Probs := List (Cell × ℚ)

/-- Python `value_counts() / n_rows()`: each distinct non-missing value of the
dependent column (pandas `value_counts` drops NaN by default) paired with
its count divided by the row count. -/
def classProbabilities (ds : Dataset) : Probs :=
  let nonmiss := ds.depValues.filter fun v => v != Cell.missing
  nonmiss.dedup.map fun v => (v, (nonmiss.count v : ℚ) / (ds.nRows : ℚ))

/-- Python `Dataset._get_class_probablity` with its per-instance memo (a proper
`is None` check, so memoization works here). -/
def getClassProbablity (ds : Dataset) (m : Option Probs) :
    Probs × Option Probs :=
  match m with
  | none => (classProbabilities ds, some (classProbabilities ds))
  | some p => (p, some p)

/-- Python `Dataset.class_prob_min`: NaN for regression, else the minimum class
probability. -/
def class_prob_min (ds : Dataset) (m : Option Probs) :
    PyVal × Option Probs :=
  if ds.prediction_type = "regression" then (.nan, m)
  else
    let r := getClassProbablity ds m
    (seriesMin (r.1.map Prod.snd), r.2)

/-- Python `Dataset.class_prob_max`. -/
def class_prob_max (ds : Dataset) (m : Option Probs) :
    PyVal × Option Probs :=
  if ds.prediction_type = "regression" then (.nan, m)
  else
    let r := getClassProbablity ds m
    (seriesMax (r.1.map Prod.snd), r.2)

/-- Python `Dataset.class_prob_std` (`std(ddof=1)`). -/
def class_prob_std (ds : Dataset) (m : Option Probs) :
    PyVal × Option Probs :=
  if ds.prediction_type = "regression" then (.nan, m)
  else
    let r := getClassProbablity ds m
    (seriesStd (r.1.map Prod.snd), r.2)

/-- Python `Dataset.class_prob_mean`. -/
def class_prob_mean (ds : Dataset) (m : Option Probs) :
    PyVal × Option Probs :=
  if ds.prediction_type = "regression" then (.nan, m)
  else
    let r := getClassProbablity ds m
    (seriesMean (r.1.map Prod.snd), r.2)

/-- Python `Dataset.class_prob_median`. -/
def class_prob_median (ds : Dataset) (m : Option Probs) :
    PyVal × Option Probs :=
  if ds.prediction_type = "regression" then (.nan, m)
  else
    let r := getClassProbablity ds m
    (seriesMedian (r.1.map Prod.snd), r.2)

/-- The symbol-count dictionary: categorical column name to its count of
distinct non-missing values.  In the source `symbol_counts_dict = {}` is
a CLASS-level attribute mutated in place, so one dictionary is shared by
every instance of the class; accessors therefore thread this shared
state explicitly. -/
abbrev SymDict := List (String × ℕ)

/-- Python `d[k] = v` on a dict: overwrite the existing binding or append
a new one. -/
def dictInsert (d : SymDict) (k : String) (v : ℕ) : SymDict :=
  if d.any (fun p => p.1 = k) then
    d.map fun p => if p.1 = k then (k, v) else p
  else d ++ [(k, v)]

/-- Python `Dataset._get_symbols_per_category`: if the (shared, class-level)
dictionary is falsy (empty), fill it with
`df[column].dropna().unique().shape[0]` for each categorical column of
THIS instance; otherwise return it as is.  Returns the result and the
updated shared dictionary. -/
def getSymbolsPerCategory (ds : Dataset) (sh : SymDict) :
    SymDict × SymDict :=
  if sh.isEmpty then
    let t := ds.categorical_cols.foldl
      (fun acc col =>
        dictInsert acc col (distinctNonMissing (ds.df.colValues col)).length)
      sh
    (t, t)
  else (sh, sh)

/-- Python `Dataset.symbols_mean` (`np.nanmean` over the dictionary values; NaN
when the dictionary is empty). -/
def symbols_mean (ds : Dataset) (sh : SymDict) : PyVal × SymDict :=
  let r := getSymbolsPerCategory ds sh
  if r.1.isEmpty then (.nan, r.2)
  else (seriesMean (r.1.map fun p => (p.2 : ℚ)), r.2)

/-- Python `Dataset.symbols_std` (`np.nanstd(_, ddof=1)`). -/
def symbols_std (ds : Dataset) (sh : SymDict) : PyVal × SymDict :=
  let r := getSymbolsPerCategory ds sh
  if r.1.isEmpty then (.nan, r.2)
  else (seriesStd (r.1.map fun p => (p.2 : ℚ)), r.2)

/-- Python `Dataset.symbols_min` (`np.min` over the dictionary values). -/
def symbols_min (ds : Dataset) (sh : SymDict) : PyVal × SymDict :=
  let r := getSymbolsPerCategory ds sh
  if r.1.isEmpty then (.nan, r.2)
  else (seriesMin (r.1.map fun p => (p.2 : ℚ)), r.2)

/-- Python `Dataset.symbols_max` (`np.max` over the dictionary values). -/
def symbols_max (ds : Dataset) (sh : SymDict) : PyVal × SymDict :=
  let r := getSymbolsPerCategory ds sh
  if r.1.isEmpty then (.nan, r.2)
  else (seriesMax (r.1.map fun p => (p.2 : ℚ)), r.2)

/-- Python `Dataset.symbols_sum` (`np.sum` over the dictionary values). -/
def symbols_sum (ds : Dataset) (sh : SymDict) : PyVal × SymDict :=
  let r := getSymbolsPerCategory ds sh
  if r.1.isEmpty then (.nan, r.2)
  else (.val ((r.1.map fun p => (p.2 : ℚ)).sum), r.2)

/-- Extract the descriptor a successful construction returns (a dummy
descriptor on failure); used only to instantiate theorems at concrete
inputs. -/
def mkInitDs (df : Df) (pt dc : Option String)
    (cc : Option (List String)) : Dataset :=
  match Dataset.init df pt dc cc with
  | .ok ds => ds
  | .error _ => ⟨⟨[]⟩, ⟨[]⟩, "", "", [], []⟩

/-! Concrete frames used as counterexamples, failing inputs and witness
instances. -/

/-- Two numeric columns, one row each; the default dependent column name
"yz" has two characters. -/
def dfC2 : Df := ⟨[⟨"x", [.num 1]⟩, ⟨"yz", [.num 2]⟩]⟩

/-- One categorical column with three distinct symbols and a numeric
dependent column. -/
def dfA : Df :=
  ⟨[⟨"a", [.str "p", .str "q", .str "r"]⟩, ⟨"y", [.num 1, .num 2, .num 3]⟩]⟩

/-- One categorical column with two distinct symbols and a numeric
dependent column. -/
def dfB : Df :=
  ⟨[⟨"b", [.str "u", .str "v", .str "u"]⟩, ⟨"y", [.num 1, .num 2, .num 3]⟩]⟩

/-- Two numeric columns: a regression descriptor with no categorical
columns. -/
def dfR : Df := ⟨[⟨"x", [.num 1, .num 2]⟩, ⟨"y", [.num 2, .num 4]⟩]⟩

/-- A concrete correlation collaborator: `df.corr()[dep]` with entry 1
for column "x" and the dependent column's self-correlation 1. -/
def corrFnDemo : CorrFn := fun _ dep => [("x", 1), (dep, 1)]

/-- A categorical column with two distinct non-missing values plus a
missing entry, and a numeric dependent column. -/
def dfC4 : Df :=
  ⟨[⟨"c", [.str "a", .str "b", .missing]⟩, ⟨"y", [.num 1, .num 2, .num 3]⟩]⟩

/-- A classification frame whose dependent column has a missing entry. -/
def dfC8 : Df := ⟨[⟨"x", [.num 1, .num 2]⟩, ⟨"y", [.str "a", .missing]⟩]⟩

/-- A classification frame with no missing entries in the dependent
column. -/
def dfW8 : Df :=
  ⟨[⟨"x", [.num 1, .num 2, .num 3]⟩, ⟨"y", [.str "a", .str "b", .str "a"]⟩]⟩

/-- A frame whose column "c" has three distinct non-missing values. -/
def gW : Df :=
  ⟨[⟨"c", [.str "a", .str "b", .str "d"]⟩, ⟨"y", [.num 1, .num 2, .num 3]⟩]⟩

/-- The column "c" of `gW`. -/
def cW : Col := ⟨"c", [.str "a", .str "b", .str "d"]⟩

/-- A one-column frame whose column "b" has two distinct values. -/
def gB2 : Df := ⟨[⟨"b", [.str "u", .str "v", .str "u"]⟩]⟩

/-- The column "b" of `gB2`. -/
def cB2 : Col := ⟨"b", [.str "u", .str "v", .str "u"]⟩

/-! Helper lemmas. -/

/-- Decidable equality of `Except` results, so concrete runs can be
settled by `decide`. -/
instance {ε α : Type} [DecidableEq ε] [DecidableEq α] :
    DecidableEq (Except ε α) := fun a b =>
  match a, b with
  | .ok x, .ok y =>
    if h : x = y then .isTrue (by rw [h]) else
      .isFalse (by intro hc; cases hc; exact h rfl)
  | .error x, .error y =>
    if h : x = y then .isTrue (by rw [h]) else
      .isFalse (by intro hc; cases hc; exact h rfl)
  | .ok _, .error _ => .isFalse (by intro hc; cases hc)
  | .error _, .ok _ => .isFalse (by intro hc; cases hc)

/-- A successful construction determines every field of the descriptor
through the resolution functions. -/
lemma init_fields {df : Df} {pt0 dc : Option String}
    {cc : Option (List String)} {ds : Dataset}
    (h : Dataset.init df pt0 dc cc = .ok ds) :
    resolveDependent df dc = .ok ds.dependent_col ∧
    ds.df = df ∧
    ds.prediction_type = resolvePredictionType df ds.dependent_col pt0 ∧
    ds.categorical_cols = resolveCategorical df ds.dependent_col cc ∧
    ds.independent_col = resolveIndependent df ds.dependent_col ∧
    encodeAll df (resolveCategorical df ds.dependent_col cc) =
      .ok ds.df_encoded := by
  cases hd : resolveDependent df dc with
  | error e => simp [Dataset.init, hd] at h
  | ok dep =>
    cases he : encodeAll df (resolveCategorical df dep cc) with
    | error e => simp [Dataset.init, hd, he] at h
    | ok enc =>
      simp only [Dataset.init, hd, he, Except.ok.injEq] at h
      subst h
      exact ⟨rfl, rfl, rfl, rfl, rfl, he⟩

/-- A label occurring among the column names is found by `find?`. -/
lemma find_col_of_mem {g : Df} {col : String} (h : col ∈ g.columnNames) :
    ∃ c, g.cols.find? (fun d => d.name = col) = some c := by
  obtain ⟨d, hd, hname⟩ := List.mem_map.mp h
  have hs : (g.cols.find? (fun d => d.name = col)).isSome := by
    rw [List.find?_isSome]
    exact ⟨d, hd, by simp [hname]⟩
  exact Option.isSome_iff_exists.mp hs

/-- Encoding a column that exists in the frame never raises. -/
lemma encodeColumn_ok_of_mem {g : Df} {col : String}
    (h : col ∈ g.columnNames) : ∃ g2, encodeColumn g col = .ok g2 := by
  obtain ⟨c, hc⟩ := find_col_of_mem h
  by_cases hle : (uniqueCells c.values).length ≤ 2
  · exact ⟨⟨g.cols.map fun d =>
      if d.name = col then ⟨d.name, labelEncode d.values⟩ else d⟩,
      by simp [encodeColumn, hc, hle]⟩
  · exact ⟨getDummies g col c, by simp [encodeColumn, hc, hle]⟩

/-- Encoding one column preserves the presence of every other column
name: label-encoding keeps all names, one-hot drops only the encoded
name. -/
lemma mem_names_encodeColumn {g g2 : Df} {col x : String}
    (h : encodeColumn g col = .ok g2) (hx : x ∈ g.columnNames)
    (hne : x ≠ col) : x ∈ g2.columnNames := by
  cases hc : g.cols.find? (fun d => d.name = col) with
  | none => simp [encodeColumn, hc] at h
  | some c =>
    simp only [encodeColumn, hc] at h
    obtain ⟨d, hd, hname⟩ := List.mem_map.mp hx
    by_cases hle : (uniqueCells c.values).length ≤ 2
    · rw [if_pos hle] at h
      obtain rfl := Except.ok.inj h
      refine List.mem_map.mpr
        ⟨if d.name = col then ⟨d.name, labelEncode d.values⟩ else d,
         List.mem_map_of_mem _ hd, ?_⟩
      by_cases hdc : d.name = col
      · rw [if_pos hdc]
        exact hname
      · rw [if_neg hdc]
        exact hname
    · rw [if_neg hle] at h
      obtain rfl := Except.ok.inj h
      have hdf : d ∈ g.cols.filter fun e => e.name != col :=
        List.mem_filter.mpr ⟨hd, by simp [hname, hne]⟩
      exact List.mem_map.mpr ⟨d, List.mem_append_left _ hdf, hname⟩

/-- Encoding a duplicate-free list of columns that all exist in the
frame succeeds. -/
lemma encodeAll_ok_of_nodup {cats : List String} {g : Df}
    (hnd : cats.Nodup) (hmem : ∀ c ∈ cats, c ∈ g.columnNames) :
    ∃ g2, encodeAll g cats = .ok g2 := by
  induction cats generalizing g with
  | nil => exact ⟨g, rfl⟩
  | cons c rest ih =>
    obtain ⟨hcn, hrest⟩ := List.nodup_cons.mp hnd
    obtain ⟨g1, hg1⟩ := encodeColumn_ok_of_mem (hmem c (by simp))
    have hmem1 : ∀ x ∈ rest, x ∈ g1.columnNames := by
      intro x hx
      refine mem_names_encodeColumn hg1 (hmem x (by simp [hx])) ?_
      rintro rfl
      exact hcn hx
    obtain ⟨g2, hg2⟩ := ih hrest hmem1
    refine ⟨g2, ?_⟩
    show List.foldlM encodeColumn g (c :: rest) = .ok g2
    rw [List.foldlM_cons, hg1]
    exact hg2

/-- The inferred categorical-column list is duplicate-free. -/
lemma resolveCategorical_none_nodup (df : Df) (dep : String) :
    (resolveCategorical df dep none).Nodup :=
  (List.nodup_dedup _).filter _

/-- Every inferred categorical column is a column of the frame. -/
lemma resolveCategorical_none_mem {df : Df} {dep c : String}
    (h : c ∈ resolveCategorical df dep none) : c ∈ df.columnNames := by
  simp only [resolveCategorical] at h
  exact List.mem_dedup.mp (List.mem_of_mem_filter h)

lemma seriesMin_of_ne_nil {l : List ℚ} (h : l ≠ []) :
    ∃ q, seriesMin l = .val q := by
  cases l with
  | nil => exact absurd rfl h
  | cons x xs => exact ⟨xs.foldl min x, rfl⟩

lemma seriesMax_of_ne_nil {l : List ℚ} (h : l ≠ []) :
    ∃ q, seriesMax l = .val q := by
  cases l with
  | nil => exact absurd rfl h
  | cons x xs => exact ⟨xs.foldl max x, rfl⟩

lemma seriesMean_of_ne_nil {l : List ℚ} (h : l ≠ []) :
    ∃ q, seriesMean l = .val q := by
  cases l with
  | nil => exact absurd rfl h
  | cons x xs => exact ⟨_, rfl⟩

lemma seriesMedian_of_ne_nil {l : List ℚ} (h : l ≠ []) :
    ∃ q, seriesMedian l = .val q := by
  cases l with
  | nil => exact absurd rfl h
  | cons x xs =>
    unfold seriesMedian
    dsimp only
    split
    · exact ⟨_, rfl⟩
    · exact ⟨_, rfl⟩

lemma seriesStd_of_two_le {l : List ℚ} (h : 2 ≤ l.length) :
    ∃ q, seriesStd l = .sqrtVal q := by
  unfold seriesStd
  rw [if_neg (by omega)]
  exact ⟨_, rfl⟩

/-- Distributing a constant divisor over a list sum. -/
lemma sum_map_div {α : Type} (l : List α) (f : α → ℚ) (c : ℚ) :
    (l.map fun x => f x / c).sum = (l.map f).sum / c := by
  induction l with
  | nil => simp
  | cons x t ih => simp [ih, add_div]

/-- Summing a 0/1 indicator of equality over a duplicate-free list counts
membership. -/
lemma sum_map_ite_eq_of_nodup (w : Cell) :
    ∀ l : List Cell, l.Nodup →
      (l.map fun v => if w = v then (1 : ℚ) else 0).sum =
        if w ∈ l then 1 else 0 := by
  intro l
  induction l with
  | nil => simp
  | cons v t ih =>
    intro hn
    rcases List.nodup_cons.mp hn with ⟨hv, ht⟩
    by_cases hw : w = v
    · subst hw
      simp [ih ht, hv]
    · simp [hw, ih ht]

/-- A missing cell is never among the distinct non-missing values. -/
lemma missing_not_mem_distinctNonMissing (vs : List Cell) :
    Cell.missing ∉ distinctNonMissing vs := by
  simp [distinctNonMissing, List.mem_dedup, List.mem_filter]

/-- A non-missing member of a column is among its distinct non-missing
values. -/
lemma mem_distinctNonMissing_of_mem {vs : List Cell} {w : Cell}
    (hw : w ∈ vs) (hm : w ≠ Cell.missing) : w ∈ distinctNonMissing vs := by
  simp [distinctNonMissing, List.mem_dedup, List.mem_filter, hw, hm]

/-- Dropping the unique column with a given name shortens a column list
by exactly one. -/
lemma length_filter_bne {g : Df} {c : Col}
    (hnodup : (g.cols.map Col.name).Nodup) (hmem : c ∈ g.cols) :
    (g.cols.filter fun d => d.name != c.name).length + 1 = g.cols.length := by
  have h1 : (g.cols.map Col.name).count c.name = 1 :=
    List.count_eq_one_of_mem hnodup (List.mem_map_of_mem _ hmem)
  have h4 : List.countP (fun s => s == c.name) (g.cols.map Col.name) = 1 := by
    simpa [List.count] using h1
  have h3 := List.length_eq_countP_add_countP
    (fun s => s == c.name) (g.cols.map Col.name)
  have h5 : List.countP (fun s => decide ¬((s == c.name) = true))
      (g.cols.map Col.name) =
      ((g.cols.map Col.name).filter fun s => s != c.name).length := by
    have hpred : (fun s : String => decide ¬((s == c.name) = true)) =
        (fun s : String => s != c.name) := by
      funext s
      by_cases hs : s = c.name <;> simp [hs]
    rw [List.countP_eq_length_filter, hpred]
  rw [h4, h5] at h3
  have h6 : ((g.cols.map Col.name).filter fun s => s != c.name) =
      (g.cols.filter fun d => d.name != c.name).map Col.name := by
    rw [List.filter_map]
    rfl
  rw [h6, List.length_map] at h3
  rw [List.length_map] at h3
  omega

/-! Claim theorems. -/

/-- C2 (failing input): on the frame `dfC2` with columns `["x", "yz"]` and
resolved dependent column `"yz"`, the constructed independent-column
collection still contains the dependent column name, because the source
subtracts `set("yz") = {"y", "z"}` (the character set of the name), not
`{"yz"}`; the claimed value, all column names minus the dependent one,
would be `{"x"}` only. -/
theorem independent_col_keeps_multichar_dependent :
    (Dataset.init dfC2 none none none).map
      (fun ds =>
        (ds.dependent_col, ds.independent_col.contains ds.dependent_col)) =
      .ok ("yz", true) := by rfl

/-- C5: an explicitly supplied prediction type is adopted unconditionally,
and with none supplied the resolved prediction type is "regression"
exactly when the dependent column is numeric, "classification"
otherwise. -/
theorem prediction_type_resolution (df : Df) (pt : String)
    (dc : Option String) (cats : Option (List String)) :
    (∀ ds, Dataset.init df (some pt) dc cats = .ok ds →
      ds.prediction_type = pt) ∧
    (∀ ds, Dataset.init df none dc cats = .ok ds →
      ds.prediction_type =
        if ds.dependent_col ∈ df.numericColumnNames then "regression"
        else "classification") := by
  constructor
  · intro ds h
    exact (init_fields h).2.2.1
  · intro ds h
    exact (init_fields h).2.2.1

/-- C5 witness: on the concrete frame `dfR`, an explicit
"classification" overrides the numeric dependent column, and inference
without an explicit type yields "regression" because the dependent
column "y" is numeric. -/
theorem prediction_type_resolution_witness :
    (mkInitDs dfR (some "classification") none none).prediction_type =
      "classification" ∧
    (mkInitDs dfR none none none).dependent_col ∈ dfR.numericColumnNames ∧
    (mkInitDs dfR none none none).prediction_type = "regression" := by
  refine ⟨(prediction_type_resolution dfR "classification" none none).1
    (mkInitDs dfR (some "classification") none none) (by rfl), by decide, ?_⟩
  have h :=
    (prediction_type_resolution dfR "classification" none none).2
      (mkInitDs dfR none none none) (by rfl)
  rw [h, if_pos (by decide)]

/-- C6: an explicitly supplied dependent column name absent from the
frame makes construction fail immediately with the invalid-argument
error (the bare `ValueError` of `_set_dependent_col`, raised before any
other resolution step, whatever the other arguments); an existing name
makes construction succeed — stated with the default inferred
categorical columns, since an explicit categorical list naming an
absent column makes the encoder raise `KeyError` later — and that name
becomes the dependent column. -/
theorem dependent_col_validation (df : Df) (n : String)
    (pt : Option String) (cats : Option (List String)) :
    (n ∉ df.columnNames →
      Dataset.init df pt (some n) cats = .error PyErr.valueError) ∧
    (n ∈ df.columnNames →
      ∃ ds, Dataset.init df pt (some n) none = .ok ds ∧
        ds.dependent_col = n) := by
  constructor
  · intro hn
    simp [Dataset.init, resolveDependent, hn]
  · intro hn
    obtain ⟨enc, henc⟩ := encodeAll_ok_of_nodup
      (resolveCategorical_none_nodup df n)
      (fun c hc => resolveCategorical_none_mem hc)
    refine ⟨⟨df, enc, n,
      resolvePredictionType df n pt, resolveCategorical df n none,
      resolveIndependent df n⟩, ?_, rfl⟩
    simp [Dataset.init, resolveDependent, hn, henc]

/-- C6 witness: on `dfR`, the absent name "zzz" raises the
invalid-argument error and the present name "x" is adopted. -/
theorem dependent_col_validation_witness :
    ("zzz" ∉ dfR.columnNames ∧
      Dataset.init dfR none (some "zzz") none = .error PyErr.valueError) ∧
    ("x" ∈ dfR.columnNames ∧
      ∃ ds, Dataset.init dfR none (some "x") none = .ok ds ∧
        ds.dependent_col = "x") :=
  ⟨⟨by decide, (dependent_col_validation dfR "zzz" none none).1 (by decide)⟩,
   ⟨by decide, (dependent_col_validation dfR "x" none none).2 (by decide)⟩⟩

/-- C6 complement: an explicit categorical list naming an absent column
makes construction raise `KeyError` even with a valid dependent name
(the unvalidated-input gap the spec documents). -/
theorem init_explicit_bogus_categorical_raises :
    Dataset.init dfR none (some "x") (some ["bogus"]) =
      .error PyErr.keyError := by rfl

/-- C9: with at least two columns and no explicit dependent column,
construction with the default inferred categorical columns succeeds
(every inferred categorical column exists in the frame, so the encoder
cannot raise) and resolves the dependent column to the last column in
declared order. -/
theorem default_dependent_is_last (df : Df) (pt : Option String)
    (h : 2 ≤ df.cols.length) :
    ∃ ds, Dataset.init df pt none none = .ok ds ∧
      some ds.dependent_col = df.columnNames.getLast? := by
  have hne : df.columnNames ≠ [] := by
    intro hc
    have h2 : df.columnNames.length = 0 := by rw [hc]; rfl
    have h3 : df.columnNames.length = df.cols.length := by
      simp [Df.columnNames]
    omega
  cases hq : df.columnNames.getLast? with
  | none => exact absurd (List.getLast?_eq_none_iff.mp hq) hne
  | some n =>
    obtain ⟨enc, henc⟩ := encodeAll_ok_of_nodup
      (resolveCategorical_none_nodup df n)
      (fun c hc => resolveCategorical_none_mem hc)
    refine ⟨⟨df, enc, n,
      resolvePredictionType df n pt, resolveCategorical df n none,
      resolveIndependent df n⟩, ?_, rfl⟩
    simp [Dataset.init, resolveDependent, hq, henc]

/-- C9 witness: on `dfR` the default dependent column is the last column
"y". -/
theorem default_dependent_is_last_witness :
    2 ≤ dfR.cols.length ∧
    ∃ ds, Dataset.init dfR none none none = .ok ds ∧
      some ds.dependent_col = dfR.columnNames.getLast? :=
  ⟨by decide, default_dependent_is_last dfR none (by decide)⟩

/-- C1 (failing input): on the regression descriptor over `dfR`, the
first call to `corr_with_dependent_abs_max` succeeds and populates the
memo, but the second call on the same instance raises, because the memo
guard `if self.corr_with_dependent != None:` compares a pandas Series
elementwise and taking its truth value raises `ValueError`; the claimed
behaviour is that the second call succeeds with the cached value. -/
theorem corr_accessor_second_call_raises :
    (Dataset.init dfR none none none).map
      (fun ds =>
        match corr_with_dependent_abs_max corrFnDemo ds ⟨none⟩ with
        | .ok (v, m1) => (some v, corr_with_dependent_abs_max corrFnDemo ds m1)
        | .error e => (none, .error e)) =
      .ok (some (.val 1), .error .seriesTruthValueError) := by rfl

/-- C3 (failing input): the symbol-count dictionary is a class-level
attribute mutated in place, so it is shared by all instances. Querying
`symbols_sum` on a descriptor over `dfA` (one categorical column with 3
symbols) fills the shared dictionary; a descriptor over `dfB` (one
categorical column with 2 symbols) queried afterwards returns 3 — the
first instance's statistic — although from a fresh dictionary it
returns 2. -/
theorem symbols_cache_shared_across_instances :
    (Dataset.init dfA none none none).bind
      (fun a => (Dataset.init dfB none none none).map
        (fun b =>
          ((symbols_sum a []).1,
           (symbols_sum b (symbols_sum a []).2).1,
           (symbols_sum b []).1))) =
      .ok (.val 3, .val 3, .val 2) := by with_unfolding_all rfl

/-- C7: not-applicable conditions yield the NaN sentinel rather than an
error: every correlation accessor on a classification descriptor returns
NaN (with the memo untouched), every class-probability accessor on a
regression descriptor returns NaN, and every symbols accessor on a
descriptor without categorical columns returns NaN when evaluated from
the initial (empty) shared dictionary. -/
theorem accessors_not_applicable_sentinel (f : CorrFn) (ds : Dataset)
    (m : CorrMemo) (mp : Option Probs) :
    (ds.prediction_type = "classification" →
      corr_with_dependent_abs_max f ds m = .ok (.nan, m) ∧
      corr_with_dependent_abs_min f ds m = .ok (.nan, m) ∧
      corr_with_dependent_abs_mean f ds m = .ok (.nan, m) ∧
      corr_with_dependent_abs_median f ds m = .ok (.nan, m) ∧
      corr_with_dependent_abs_std f ds m = .ok (.nan, m) ∧
      corr_with_dependent_abs_25p f ds m = .ok (.nan, m) ∧
      corr_with_dependent_abs_75p f ds m = .ok (.nan, m)) ∧
    (ds.prediction_type = "regression" →
      class_prob_min ds mp = (.nan, mp) ∧
      class_prob_max ds mp = (.nan, mp) ∧
      class_prob_std ds mp = (.nan, mp) ∧
      class_prob_mean ds mp = (.nan, mp) ∧
      class_prob_median ds mp = (.nan, mp)) ∧
    (ds.categorical_cols = [] →
      symbols_mean ds [] = (.nan, []) ∧
      symbols_std ds [] = (.nan, []) ∧
      symbols_min ds [] = (.nan, []) ∧
      symbols_max ds [] = (.nan, []) ∧
      symbols_sum ds [] = (.nan, [])) := by
  refine ⟨fun h => ?_, fun h => ?_, fun h => ?_⟩
  · simp [corr_with_dependent_abs_max, corr_with_dependent_abs_min,
      corr_with_dependent_abs_mean, corr_with_dependent_abs_median,
      corr_with_dependent_abs_std, corr_with_dependent_abs_25p,
      corr_with_dependent_abs_75p, h]
  · simp [class_prob_min, class_prob_max, class_prob_std, class_prob_mean,
      class_prob_median, h]
  · simp [symbols_mean, symbols_std, symbols_min, symbols_max, symbols_sum,
      getSymbolsPerCategory, h]

/-- C7 witness: the classification descriptor over `dfC8` gets NaN from a
correlation accessor, the regression descriptor over `dfR` gets NaN from
a class-probability accessor, and the same regression descriptor (no
categorical columns) gets NaN from a symbols accessor. -/
theorem accessors_not_applicable_sentinel_witness :
    ((mkInitDs dfC8 none none none).prediction_type = "classification" ∧
      corr_with_dependent_abs_max corrFnDemo (mkInitDs dfC8 none none none)
        ⟨none⟩ = .ok (.nan, ⟨none⟩)) ∧
    ((mkInitDs dfR none none none).prediction_type = "regression" ∧
      class_prob_min (mkInitDs dfR none none none) none = (.nan, none)) ∧
    ((mkInitDs dfR none none none).categorical_cols = [] ∧
      symbols_sum (mkInitDs dfR none none none) [] = (.nan, [])) :=
  ⟨⟨by decide,
    ((accessors_not_applicable_sentinel corrFnDemo
      (mkInitDs dfC8 none none none) ⟨none⟩ none).1 (by decide)).1⟩,
   ⟨by decide,
    ((accessors_not_applicable_sentinel corrFnDemo
      (mkInitDs dfR none none none) ⟨none⟩ none).2.1 (by decide)).1⟩,
   ⟨by decide,
    ((accessors_not_applicable_sentinel corrFnDemo
      (mkInitDs dfR none none none) ⟨none⟩ none).2.2 (by decide)).2.2.2.2⟩⟩

/-- C10: with an explicitly supplied prediction type that is neither
"regression" nor "classification", the statistic families are
asymmetric: every class-probability accessor takes its compute branch
(returning a real statistic when the dependent column has non-missing
values, and the sample standard deviation once at least two classes
exist), every correlation accessor propagates an `AttributeError`
(`_get_corr_with_dependent` falls through to `None`, and `None.abs()`
fails), and `n_classes` returns the NaN sentinel. -/
theorem unknown_prediction_type_asymmetry (f : CorrFn) (df : Df)
    (pt : String) (dc : Option String) (cc : Option (List String))
    (ds : Dataset) (m : CorrMemo)
    (hinit : Dataset.init df (some pt) dc cc = .ok ds)
    (hr : pt ≠ "regression") (hc : pt ≠ "classification") :
    (ds.depValues.filter (fun v => v != Cell.missing) ≠ [] →
      (∃ q m1, class_prob_min ds none = (.val q, m1)) ∧
      (∃ q m1, class_prob_max ds none = (.val q, m1)) ∧
      (∃ q m1, class_prob_mean ds none = (.val q, m1)) ∧
      (∃ q m1, class_prob_median ds none = (.val q, m1))) ∧
    (2 ≤ (classProbabilities ds).length →
      ∃ q m1, class_prob_std ds none = (.sqrtVal q, m1)) ∧
    (corr_with_dependent_abs_max f ds m = .error .attributeError ∧
     corr_with_dependent_abs_min f ds m = .error .attributeError ∧
     corr_with_dependent_abs_mean f ds m = .error .attributeError ∧
     corr_with_dependent_abs_median f ds m = .error .attributeError ∧
     corr_with_dependent_abs_std f ds m = .error .attributeError ∧
     corr_with_dependent_abs_25p f ds m = .error .attributeError ∧
     corr_with_dependent_abs_75p f ds m = .error .attributeError) ∧
    ds.n_classes = .nan := by
  have hpt : ds.prediction_type = pt := (init_fields hinit).2.2.1
  have hprobs : ∀ hne : ds.depValues.filter (fun v => v != Cell.missing) ≠ [],
      ((classProbabilities ds).map Prod.snd) ≠ [] := by
    intro hne hmap
    have h1 : classProbabilities ds = [] := List.map_eq_nil_iff.mp hmap
    have h2 : (ds.depValues.filter
        (fun v => v != Cell.missing)).dedup.length = 0 := by
      simpa [classProbabilities] using congrArg List.length h1
    exact hne ((List.dedup_eq_nil _).mp (List.length_eq_zero.mp h2))
  refine ⟨fun hne => ?_, fun h2 => ?_, ?_, ?_⟩
  · have hne2 := hprobs hne
    obtain ⟨q1, e1⟩ := seriesMin_of_ne_nil hne2
    obtain ⟨q2, e2⟩ := seriesMax_of_ne_nil hne2
    obtain ⟨q3, e3⟩ := seriesMean_of_ne_nil hne2
    obtain ⟨q4, e4⟩ := seriesMedian_of_ne_nil hne2
    refine ⟨⟨q1, some (classProbabilities ds), ?_⟩,
      ⟨q2, some (classProbabilities ds), ?_⟩,
      ⟨q3, some (classProbabilities ds), ?_⟩,
      ⟨q4, some (classProbabilities ds), ?_⟩⟩ <;>
      simp [class_prob_min, class_prob_max, class_prob_mean,
        class_prob_median, getClassProbablity, hpt, hr, e1, e2, e3, e4]
  · have hlen : 2 ≤ ((classProbabilities ds).map Prod.snd).length := by
      simpa using h2
    obtain ⟨q, e⟩ := seriesStd_of_two_le hlen
    exact ⟨q, some (classProbabilities ds),
      by simp [class_prob_std, getClassProbablity, hpt, hr, e]⟩
  · refine ⟨?_, ?_, ?_, ?_, ?_, ?_, ?_⟩ <;>
      simp [corr_with_dependent_abs_max, corr_with_dependent_abs_min,
        corr_with_dependent_abs_mean, corr_with_dependent_abs_median,
        corr_with_dependent_abs_std, corr_with_dependent_abs_25p,
        corr_with_dependent_abs_75p, getCorrWithDependent, hpt, hr, hc]
  · simp [Dataset.n_classes, hpt, hc]

/-- C10 witness: the descriptor over `dfR` constructed with the explicit
prediction type "foo" has NaN `n_classes`, an erroring correlation
accessor, and a class-probability accessor returning a real value. -/
theorem unknown_prediction_type_asymmetry_witness :
    (mkInitDs dfR (some "foo") none none).n_classes = .nan ∧
    corr_with_dependent_abs_max corrFnDemo
      (mkInitDs dfR (some "foo") none none) ⟨none⟩ =
        .error .attributeError ∧
    ∃ q m1, class_prob_min (mkInitDs dfR (some "foo") none none) none =
      (.val q, m1) := by
  have h := unknown_prediction_type_asymmetry corrFnDemo dfR "foo" none
    none (mkInitDs dfR (some "foo") none none) ⟨none⟩ (by rfl)
    (by decide) (by decide)
  exact ⟨h.2.2.2, h.2.2.1.1, (h.1 (by decide)).1⟩

/-- C8 (counterexample): on the classification descriptor over `dfC8`,
whose dependent column is `["a", missing]`, the class-probability values
sum to 1/2, not 1: `value_counts()` drops the missing entry while the
divisor `n_rows()` still counts its row. -/
theorem class_probabilities_sum_below_one :
    ((Dataset.init dfC8 none none none).map
      (fun ds =>
        (ds.prediction_type, ((classProbabilities ds).map Prod.snd).sum)) =
      .ok ("classification", 1 / 2)) ∧ (1 : ℚ) / 2 ≠ 1 := by
  constructor
  · with_unfolding_all rfl
  · norm_num

/-- C8 (amended): for a classification descriptor whose dependent column
has no missing entries (and row-aligned columns), the class-probability
mapping assigns each distinct dependent value its count divided by the
row count, and the probabilities sum to exactly 1. -/
theorem class_probabilities_sum_one (ds : Dataset)
    (_hcls : ds.prediction_type = "classification")
    (hlen : ds.depValues.length = ds.nRows)
    (hpos : 0 < ds.nRows)
    (hmiss : ∀ v ∈ ds.depValues, v ≠ Cell.missing) :
    classProbabilities ds =
      ds.depValues.dedup.map
        (fun v => (v, ((ds.depValues.count v : ℚ) / (ds.nRows : ℚ)))) ∧
    ((classProbabilities ds).map Prod.snd).sum = 1 := by
  have hfil : ds.depValues.filter (fun v => v != Cell.missing) =
      ds.depValues :=
    List.filter_eq_self.mpr fun a ha => by simpa using hmiss a ha
  constructor
  · simp only [classProbabilities, hfil]
  · have h1 : (classProbabilities ds).map Prod.snd =
        ds.depValues.dedup.map
          (fun v => ((ds.depValues.count v : ℚ) / (ds.nRows : ℚ))) := by
      simp only [classProbabilities, hfil, List.map_map]
      rfl
    rw [h1, sum_map_div]
    have h2 : (ds.depValues.dedup.map
        fun v => ((ds.depValues.count v : ℕ) : ℚ)).sum =
        ((ds.depValues.length : ℕ) : ℚ) := by
      have h3 := List.sum_map_count_dedup_eq_length ds.depValues
      calc (ds.depValues.dedup.map
            fun v => ((ds.depValues.count v : ℕ) : ℚ)).sum
          = ((ds.depValues.dedup.map
              fun v => ds.depValues.count v).map fun n : ℕ => (n : ℚ)).sum := by
            rw [List.map_map]; rfl
        _ = (((ds.depValues.dedup.map
              fun v => ds.depValues.count v).sum : ℕ) : ℚ) :=
            (Nat.cast_list_sum _).symm
        _ = ((ds.depValues.length : ℕ) : ℚ) := by
            rw [show (ds.depValues.dedup.map
              fun v => ds.depValues.count v).sum = ds.depValues.length from h3]

    rw [h2, hlen]
    exact div_self (Nat.cast_ne_zero.mpr hpos.ne')

/-- C8 witness: on the descriptor over `dfW8` (dependent column
`["a", "b", "a"]`, three rows), the class-probability mapping is the
count/rowcount mapping and its values sum to 1. -/
theorem class_probabilities_sum_one_witness :
    ((mkInitDs dfW8 none none none).prediction_type = "classification" ∧
     (mkInitDs dfW8 none none none).depValues.length =
       (mkInitDs dfW8 none none none).nRows ∧
     0 < (mkInitDs dfW8 none none none).nRows ∧
     (∀ v ∈ (mkInitDs dfW8 none none none).depValues, v ≠ Cell.missing)) ∧
    classProbabilities (mkInitDs dfW8 none none none) =
      (mkInitDs dfW8 none none none).depValues.dedup.map
        (fun v => (v, (((mkInitDs dfW8 none none none).depValues.count v : ℚ) /
          ((mkInitDs dfW8 none none none).nRows : ℚ)))) ∧
    ((classProbabilities (mkInitDs dfW8 none none none)).map Prod.snd).sum = 1 :=
  ⟨⟨by decide, by decide, by decide, by decide⟩,
   (class_probabilities_sum_one (mkInitDs dfW8 none none none)
     (by decide) (by decide) (by decide) (by decide)).1,
   (class_probabilities_sum_one (mkInitDs dfW8 none none none)
     (by decide) (by decide) (by decide) (by decide)).2⟩

/-- C4 (counterexample): on `dfC4`, the categorical column "c" holds
`["a", "b", missing]` — exactly 2 distinct non-missing values, so the
claim predicts the label-encoding branch and an unchanged column count
of 2; but `unique()` counts the missing value too, `len = 3 > 2` takes
the one-hot branch, and the encoded frame has 3 columns. -/
theorem encoding_branch_counts_missing :
    (Dataset.init dfC4 none none none).map
      (fun ds =>
        ((distinctNonMissing (ds.df.colValues "c")).length,
         ds.df.cols.length, ds.df_encoded.cols.length)) =
      .ok (2, 2, 3) := by with_unfolding_all rfl

/-- C4 (amended): the encoding branch is decided by the count of distinct
values where a missing value counts as one distinct value
(`unique()` without `dropna`).  When that count exceeds 2, the original
column is removed and exactly one 0/1 indicator column per distinct
non-missing value is appended, named by the column name and the value,
with each row's indicators summing to 1, or 0 if that row's value was
missing; when the count is at most 2, the column count is unchanged and
the column's values become integer codes in {0, 1}. -/
theorem encode_column_shape (g : Df) (c : Col)
    (hfind : g.cols.find? (fun d => d.name = c.name) = some c)
    (hnodup : (g.cols.map Col.name).Nodup) :
    (2 < (uniqueCells c.values).length →
      ∃ inds,
        encodeColumn g c.name =
          .ok ⟨(g.cols.filter fun d => d.name != c.name) ++ inds⟩ ∧
        inds.length = (distinctNonMissing c.values).length ∧
        inds.map Col.name =
          (distinctNonMissing c.values).map
            (fun v => c.name ++ "_" ++ cellStr v) ∧
        (g.cols.filter fun d => d.name != c.name).length + 1 =
          g.cols.length ∧
        ∀ i, i < c.values.length →
          (inds.map fun ic => cellQ (ic.values.getD i Cell.missing)).sum =
            (if c.values.getD i Cell.missing = Cell.missing then 0 else 1)) ∧
    ((uniqueCells c.values).length ≤ 2 →
      ∃ g2, encodeColumn g c.name = .ok g2 ∧
        g2.cols.length = g.cols.length ∧
        ∀ d ∈ g2.cols, d.name = c.name →
          ∀ v ∈ d.values, v = Cell.num 0 ∨ v = Cell.num 1) := by
  have hmem : c ∈ g.cols := List.mem_of_find?_eq_some hfind
  constructor
  · intro hu
    have hnotle : ¬ (uniqueCells c.values).length ≤ 2 := by omega
    refine ⟨(distinctNonMissing c.values).map (fun v =>
        Col.mk (c.name ++ "_" ++ cellStr v)
          (c.values.map fun w => Cell.num (if w = v then 1 else 0))),
      ?_, ?_, ?_, length_filter_bne hnodup hmem, ?_⟩
    · simp [encodeColumn, hfind, hnotle, getDummies]
    · simp
    · simp
    · intro i hi
      have hwi : c.values.getD i Cell.missing = c.values[i] :=
        List.getD_eq_getElem c.values Cell.missing hi
      have hmapped : (((distinctNonMissing c.values).map (fun v =>
          Col.mk (c.name ++ "_" ++ cellStr v)
            (c.values.map fun w => Cell.num (if w = v then 1 else 0)))).map
          (fun ic => cellQ (ic.values.getD i Cell.missing))) =
          (distinctNonMissing c.values).map
            (fun v => if c.values.getD i Cell.missing = v then (1 : ℚ)
              else 0) := by
        rw [List.map_map]
        congr 1
        funext v
        have hlen : i <
            (c.values.map fun w => Cell.num (if w = v then 1 else 0)).length := by
          simpa using hi
        show cellQ ((c.values.map
          fun w => Cell.num (if w = v then 1 else 0)).getD i Cell.missing) = _
        rw [List.getD_eq_getElem _ _ hlen, List.getElem_map, hwi]
        rfl
      have hnd : (distinctNonMissing c.values).Nodup := List.nodup_dedup _
      rw [hmapped, sum_map_ite_eq_of_nodup _ _ hnd]
      by_cases hm : c.values.getD i Cell.missing = Cell.missing
      · rw [if_pos hm, if_neg]
        rw [hm]
        exact missing_not_mem_distinctNonMissing c.values
      · rw [if_neg hm, if_pos]
        exact mem_distinctNonMissing_of_mem
          (hwi ▸ List.getElem_mem hi) hm
  · intro hu
    refine ⟨⟨g.cols.map fun d =>
        if d.name = c.name then ⟨d.name, labelEncode d.values⟩ else d⟩,
      by simp [encodeColumn, hfind, hu], by simp, ?_⟩
    intro d hd hdn v hv
    obtain ⟨a, ha, hda⟩ := List.mem_map.mp hd
    by_cases han : a.name = c.name
    · rw [if_pos han] at hda
      have hac : a = c :=
        List.inj_on_of_nodup_map hnodup ha hmem (by rw [han])
      subst hac
      rw [← hda] at hv
      obtain ⟨w, hwmem, hveq⟩ := List.mem_map.mp hv
      have hidx : (a.values.dedup).indexOf w < (a.values.dedup).length :=
        List.indexOf_lt_length.mpr (List.mem_dedup.mpr hwmem)
      have hle : (a.values.dedup).length ≤ 2 := by
        simpa [uniqueCells] using hu
      rcases (by omega : (a.values.dedup).indexOf w = 0 ∨
          (a.values.dedup).indexOf w = 1) with h0 | h0 <;>
        rw [← hveq] <;> simp [h0]
    · rw [if_neg han] at hda
      rw [← hda] at hdn
      exact absurd hdn han

/-- C4 witness: on `gW` the column "c" has 3 distinct values, exercising
the one-hot branch, and on `gB2` the column "b" has 2 distinct values,
exercising the label-encoding branch. -/
theorem encode_column_shape_witness :
    (gW.cols.find? (fun d => d.name = cW.name) = some cW ∧
     (gW.cols.map Col.name).Nodup ∧
     2 < (uniqueCells cW.values).length ∧
     ∃ inds,
        encodeColumn gW cW.name =
          .ok ⟨(gW.cols.filter fun d => d.name != cW.name) ++ inds⟩ ∧
        inds.length = (distinctNonMissing cW.values).length ∧
        inds.map Col.name =
          (distinctNonMissing cW.values).map
            (fun v => cW.name ++ "_" ++ cellStr v) ∧
        (gW.cols.filter fun d => d.name != cW.name).length + 1 =
          gW.cols.length ∧
        ∀ i, i < cW.values.length →
          (inds.map fun ic => cellQ (ic.values.getD i Cell.missing)).sum =
            (if cW.values.getD i Cell.missing = Cell.missing then 0
              else 1)) ∧
    (gB2.cols.find? (fun d => d.name = cB2.name) = some cB2 ∧
     (gB2.cols.map Col.name).Nodup ∧
     (uniqueCells cB2.values).length ≤ 2 ∧
     ∃ g2, encodeColumn gB2 cB2.name = .ok g2 ∧
        g2.cols.length = gB2.cols.length ∧
        ∀ d ∈ g2.cols, d.name = cB2.name →
          ∀ v ∈ d.values, v = Cell.num 0 ∨ v = Cell.num 1) := by
  constructor
  · exact ⟨by decide, by decide, by decide,
      (encode_column_shape gW cW (by decide) (by decide)).1 (by decide)⟩
  · exact ⟨by decide, by decide, by decide,
      (encode_column_shape gB2 cB2 (by decide) (by decide)).2 (by decide)⟩

end DatasetDescribe
